import Mathlib

/-!
Verification of the express-image-provider middleware (src/lib/ImgServer.ts and
src/app.ts) against its natural-language specification.

Strings are modelled as lists of characters (`Str`). JavaScript numbers, as
far as the query-resolution layer manipulates them, are modelled by `JsNum`:
NaN, the two infinities, and exact scaled decimals m / 10^k — the value set
`Number(..)` produces from strings. The coercion `jsNumber` follows the
ECMAScript StringNumericLiteral grammar: whitespace trimming, signs, decimal
literals with fraction and exponent, hex, octal and binary literals,
Infinity, and the empty string coercing to 0. Three disclosed approximations
to IEEE-754 doubles remain: (i) in-range values stay exact decimals rather
than being rounded to 53-bit binary, so inputs whose treatment depends on
sub-ulp rounding (more than about 17 significant digits within half an ulp
of a comparison bound) are beyond the model; (ii) overflow to Infinity and
underflow to zero are applied at the exact double-range boundaries
2^1024 - 2^970 and 2^(-1075); (iii) stored numbers are rendered in plain
positional decimal, not the exponent notation JavaScript switches to for
magnitudes at least 1e21 or below 1e-6 — no claim depends on the concrete
rendering of such values, only on the rendering being injective, which holds
for both notations. Configuration numerics, integer literals in the source,
are modelled as integers.

The filesystem, the `sharp` codec, and express's `sendFile` are external
capabilities; they enter the model as a record of oracles (`Fs`).
-/

set_option exponentiation.threshold 1200

set_option maxRecDepth 4000

abbrev Str := List Char

/-- Decimal digit character for a digit value below ten, as JavaScript
number-to-string conversion produces. -/
def digitChar (n : Nat) : Char := Char.ofNat (48 + n)

/-- Numeric value of a decimal digit character. -/
def digitVal (c : Char) : Nat := c.toNat - 48

/-- Fuel-driven loop producing the decimal digits of a natural number, most
significant first; the fuel argument only forces termination and is
irrelevant as long as it exceeds the number being rendered. -/
def natToCharsAux : Nat → Nat → Str → Str
  | 0, _, acc => acc
  | fuel + 1, n, acc =>
    if n < 10 then digitChar n :: acc
    else natToCharsAux fuel (n / 10) (digitChar (n % 10) :: acc)

/-- Decimal rendering of a natural number. -/
def natToChars (n : Nat) : Str := natToCharsAux (n + 1) n []

/-- Decimal rendering of an integer, exactly as JavaScript template
interpolation renders an integral number: an optional leading minus sign
followed by the decimal digits of the absolute value. -/
def intToChars (i : Int) : Str :=
  if i < 0 then '-' :: natToChars i.natAbs else natToChars i.toNat

/-- Parse a list of decimal digit characters back into a natural number. -/
def parseNatChars (l : Str) : Nat := l.foldl (fun a c => a * 10 + digitVal c) 0

lemma natToCharsAux_irrel :
    ∀ (f₁ f₂ n : Nat) (acc : Str), n < f₁ → n < f₂ →
      natToCharsAux f₁ n acc = natToCharsAux f₂ n acc := by
  intro f₁
  induction f₁ with
  | zero => intro f₂ n acc h₁ _; exact absurd h₁ (Nat.not_lt_zero n)
  | succ f ih =>
    intro f₂ n acc h₁ h₂
    cases f₂ with
    | zero => exact absurd h₂ (Nat.not_lt_zero n)
    | succ f₂' =>
      simp only [natToCharsAux]
      by_cases h : n < 10
      · simp [h]
      · have hdiv : n / 10 < n := Nat.div_lt_self (by omega) (by omega)
        simp only [if_neg h]
        exact ih f₂' (n / 10) _ (by omega) (by omega)

lemma natToCharsAux_acc :
    ∀ (fuel n : Nat) (acc : Str), n < fuel →
      natToCharsAux fuel n acc = natToCharsAux fuel n [] ++ acc := by
  intro fuel
  induction fuel with
  | zero => intro n acc h; exact absurd h (Nat.not_lt_zero n)
  | succ f ih =>
    intro n acc h
    simp only [natToCharsAux]
    by_cases h10 : n < 10
    · simp [h10]
    · have hdiv : n / 10 < n := Nat.div_lt_self (by omega) (by omega)
      simp only [if_neg h10]
      rw [ih (n / 10) (digitChar (n % 10) :: acc) (by omega),
        ih (n / 10) [digitChar (n % 10)] (by omega)]
      simp

lemma natToChars_lt {n : Nat} (h : n < 10) : natToChars n = [digitChar n] := by
  simp [natToChars, natToCharsAux, h]

lemma natToChars_ge {n : Nat} (h : 10 ≤ n) :
    natToChars n = natToChars (n / 10) ++ [digitChar (n % 10)] := by
  have hdiv : n / 10 < n := Nat.div_lt_self (by omega) (by omega)
  show natToCharsAux (n + 1) n [] = _
  simp only [natToCharsAux, if_neg (by omega : ¬ n < 10)]
  rw [natToCharsAux_acc n (n / 10) [digitChar (n % 10)] (by omega),
    natToCharsAux_irrel n (n / 10 + 1) (n / 10) [] (by omega) (by omega)]
  rfl

lemma digitChar_isDigit {n : Nat} (h : n < 10) : (digitChar n).isDigit = true := by
  interval_cases n <;> decide

lemma digitVal_digitChar {n : Nat} (h : n < 10) : digitVal (digitChar n) = n := by
  interval_cases n <;> decide

lemma natToChars_digits {n : Nat} : ∀ c ∈ natToChars n, c.isDigit = true := by
  induction n using Nat.strong_induction_on with
  | _ n ih =>
    by_cases h : n < 10
    · rw [natToChars_lt h]
      intro c hc
      simp only [List.mem_singleton] at hc
      subst hc
      exact digitChar_isDigit h
    · rw [natToChars_ge (by omega)]
      intro c hc
      rcases List.mem_append.mp hc with hc | hc
      · exact ih (n / 10) (Nat.div_lt_self (by omega) (by omega)) c hc
      · simp only [List.mem_singleton] at hc
        subst hc
        exact digitChar_isDigit (Nat.mod_lt n (by omega))

lemma natToChars_ne_nil {n : Nat} : natToChars n ≠ [] := by
  by_cases h : n < 10
  · rw [natToChars_lt h]; simp
  · rw [natToChars_ge (by omega)]; simp

lemma natToChars_head {n : Nat} :
    ∃ c t, natToChars n = c :: t ∧ c.isDigit = true := by
  rcases hne : natToChars n with _ | ⟨c, t⟩
  · exact absurd hne natToChars_ne_nil
  · exact ⟨c, t, rfl, natToChars_digits c (by rw [hne]; simp)⟩

lemma parseNat_natToChars {n : Nat} : parseNatChars (natToChars n) = n := by
  induction n using Nat.strong_induction_on with
  | _ n ih =>
    by_cases h : n < 10
    · rw [natToChars_lt h]
      show 0 * 10 + digitVal (digitChar n) = n
      rw [digitVal_digitChar h]
      omega
    · rw [natToChars_ge (by omega)]
      have hdiv := ih (n / 10) (Nat.div_lt_self (by omega) (by omega))
      unfold parseNatChars at hdiv ⊢
      rw [List.foldl_append, hdiv]
      show n / 10 * 10 + digitVal (digitChar (n % 10)) = n
      rw [digitVal_digitChar (Nat.mod_lt n (by omega))]
      omega

lemma natToChars_inj {a b : Nat} (h : natToChars a = natToChars b) : a = b := by
  have ha := parseNat_natToChars (n := a)
  rw [h, parseNat_natToChars] at ha
  omega

/-- Cancellation along a separator boundary: when two strings made of
characters satisfying a predicate are each followed by material starting with
a separator character that does not satisfy the predicate, equal
concatenations force equal parts. -/
lemma append_cancel_pred (p : Char → Bool) (sep : Char) (hsep : p sep = false) :
    ∀ (a₁ a₂ s₁ s₂ : Str), (∀ c ∈ a₁, p c = true) → (∀ c ∈ a₂, p c = true) →
      (∃ t, s₁ = sep :: t) → (∃ t, s₂ = sep :: t) →
      a₁ ++ s₁ = a₂ ++ s₂ → a₁ = a₂ ∧ s₁ = s₂ := by
  intro a₁
  induction a₁ with
  | nil =>
    intro a₂ s₁ s₂ _ h₂ hs₁ _ h
    cases a₂ with
    | nil => exact ⟨rfl, by simpa using h⟩
    | cons c a₂' =>
      obtain ⟨t, ht⟩ := hs₁
      rw [List.nil_append, ht, List.cons_append] at h
      injection h with h1 _
      have hc := h₂ c (by simp)
      rw [← h1, hsep] at hc
      exact absurd hc (by simp)
  | cons c a₁' ih =>
    intro a₂ s₁ s₂ h₁ h₂ hs₁ hs₂ h
    cases a₂ with
    | nil =>
      obtain ⟨t, ht⟩ := hs₂
      rw [List.nil_append, ht, List.cons_append] at h
      injection h with h1 _
      have hc := h₁ c (by simp)
      rw [h1, hsep] at hc
      exact absurd hc (by simp)
    | cons d a₂' =>
      rw [List.cons_append, List.cons_append] at h
      injection h with h1 h2
      obtain ⟨ha, hs⟩ := ih a₂' s₁ s₂ (fun x hx => h₁ x (by simp [hx]))
        (fun x hx => h₂ x (by simp [hx])) hs₁ hs₂ h2
      exact ⟨by rw [h1, ha], hs⟩

/-! ## JavaScript numbers and the string-to-number coercion -/

/-- The values JavaScript's `Number(..)` can produce from a string: NaN, the
two infinities, or an exact scaled decimal `m / 10^k`. In-range values are
kept exact rather than rounded to 53-bit binary; see the module comment for
the disclosed approximations. The representation is not quotiented: the
coercion below always produces the canonical form (k = 0, or m not divisible
by 10), matching the unique double a literal denotes. -/
inductive JsNum where
  | nan : JsNum
  | inf : Bool → JsNum
  | dec : Int → Nat → JsNum
deriving DecidableEq

/-- JavaScript truthiness of a number: NaN and ±0 are falsy, everything else
(including the infinities) is truthy. -/
def jsTruthy : JsNum → Bool
  | JsNum.nan => false
  | JsNum.inf _ => true
  | JsNum.dec m _ => decide (m ≠ 0)

/-- JavaScript comparison `n < b` against an integer bound: false for NaN,
true for negative infinity, false for positive infinity, exact comparison
otherwise. -/
def jsLtInt : JsNum → Int → Bool
  | JsNum.nan, _ => false
  | JsNum.inf neg, _ => neg
  | JsNum.dec m k, b => decide (m < b * ((10 ^ k : Nat) : Int))

/-- JavaScript comparison `n ≤ b` against an integer bound. -/
def jsLeInt : JsNum → Int → Bool
  | JsNum.nan, _ => false
  | JsNum.inf neg, _ => neg
  | JsNum.dec m k, b => decide (m ≤ b * ((10 ^ k : Nat) : Int))

/-- JavaScript comparison `n ≥ b` against an integer bound. -/
def jsGeInt : JsNum → Int → Bool
  | JsNum.nan, _ => false
  | JsNum.inf neg, _ => !neg
  | JsNum.dec m k, b => decide (b * ((10 ^ k : Nat) : Int) ≤ m)

/-- The ECMAScript StrWhiteSpace characters `Number(..)` trims: WhiteSpace
(tab, VT, FF, space, NBSP, BOM and the Unicode Zs category) and the line
terminators. -/
def jsWhitespaceChar (c : Char) : Bool :=
  c ∈ [' ', '\t', '\n', '\r', Char.ofNat 11, Char.ofNat 12, Char.ofNat 160,
    Char.ofNat 0x1680, Char.ofNat 0x2000, Char.ofNat 0x2001, Char.ofNat 0x2002,
    Char.ofNat 0x2003, Char.ofNat 0x2004, Char.ofNat 0x2005, Char.ofNat 0x2006,
    Char.ofNat 0x2007, Char.ofNat 0x2008, Char.ofNat 0x2009, Char.ofNat 0x200A,
    Char.ofNat 0x2028, Char.ofNat 0x2029, Char.ofNat 0x202F, Char.ofNat 0x205F,
    Char.ofNat 0x3000, Char.ofNat 0xFEFF]

/-- Strip leading and trailing JavaScript whitespace. -/
def trimWs (s : Str) : Str :=
  ((s.dropWhile jsWhitespaceChar).reverse.dropWhile jsWhitespaceChar).reverse

/-- Split a string at the first character satisfying the predicate, dropping
that character; `none` when it does not occur. -/
def splitAtFirst (p : Char → Bool) : Str → Str × Option Str
  | [] => ([], none)
  | c :: r =>
    if p c then ([], some r)
    else
      let x := splitAtFirst p r
      (c :: x.1, x.2)

/-- Value of a hexadecimal digit character, 99 for non-digits. -/
def radixVal (c : Char) : Nat :=
  if 48 ≤ c.toNat ∧ c.toNat ≤ 57 then c.toNat - 48
  else if 97 ≤ c.toNat ∧ c.toNat ≤ 102 then c.toNat - 87
  else if 65 ≤ c.toNat ∧ c.toNat ≤ 70 then c.toNat - 55
  else 99

/-- Canonicalize a scaled decimal by stripping factors of ten that are
common to the mantissa and the scale, as the double denoted by a literal does
not remember trailing zeros. -/
def canonDec : Int → Nat → JsNum
  | m, 0 => JsNum.dec m 0
  | m, k + 1 => if m % 10 = 0 then canonDec (m / 10) k else JsNum.dec m (k + 1)

/-- Clamp a scaled decimal to the double range: magnitudes of at most
2^(-1075) (half the least subnormal; the tie rounds to even, hence to zero)
collapse to zero, and magnitudes of at least 2^1024 - 2^970 (the rounding
boundary above the largest finite double) overflow to the signed infinity. -/
def clampRange (n : JsNum) : JsNum :=
  match n with
  | JsNum.dec m k =>
    if m.natAbs * 2 ^ 1075 ≤ 10 ^ k then JsNum.dec 0 0
    else if (2 ^ 1024 - 2 ^ 970 : Nat) * 10 ^ k ≤ m.natAbs then
      JsNum.inf (decide (m < 0))
    else n
  | x => x

/-- Assemble a parsed decimal literal: mantissa digits `m₀`, fraction length
`k₀` and exponent `e` denote `±m₀ · 10^(e - k₀)`. The two guards short-cut
astronomically large or small exponents (which denote Infinity or zero in
any case) before the powers are materialised. -/
def mkDec (neg : Bool) (m₀ k₀ : Nat) (e : Int) : JsNum :=
  if m₀ = 0 then JsNum.dec 0 0
  else
    let sm : Int := if neg then -(m₀ : Int) else (m₀ : Int)
    let net : Int := e - (k₀ : Int)
    if 0 ≤ net then
      if 309 ≤ net then JsNum.inf neg
      else clampRange (JsNum.dec (sm * ((10 ^ net.toNat : Nat) : Int)) 0)
    else
      let k := (-net).toNat
      if (natToChars m₀).length + 324 ≤ k then JsNum.dec 0 0
      else clampRange (canonDec sm k)

/-- A NonDecimalIntegerLiteral (after the 0x/0o/0b prefix): a nonempty digit
string in the given base; no sign and no fraction are admitted. -/
def parseRadix (b : Nat) (s : Str) : JsNum :=
  if s ≠ [] ∧ s.all (fun c => radixVal c < b) then
    clampRange (JsNum.dec ((s.foldl (fun a c => a * b + radixVal c) 0 : Nat) : Int) 0)
  else JsNum.nan

/-- A StrUnsignedDecimalLiteral without the Infinity production: integer
digits, optional fraction, optional exponent, where at least one digit must
be present around the decimal point and exponent digits must be nonempty. -/
def parseDecLit (neg : Bool) (s : Str) : JsNum :=
  let me := splitAtFirst (fun c => c = 'e' ∨ c = 'E') s
  let expVal : Option Int :=
    match me.2 with
    | none => some 0
    | some ed =>
      match ed with
      | '+' :: d =>
        if d ≠ [] ∧ d.all Char.isDigit then some ((parseNatChars d : Int)) else none
      | '-' :: d =>
        if d ≠ [] ∧ d.all Char.isDigit then some (-(parseNatChars d : Int)) else none
      | d => if d ≠ [] ∧ d.all Char.isDigit then some ((parseNatChars d : Int)) else none
  let mf := splitAtFirst (fun c => c = '.') me.1
  let ip := mf.1
  let fp := (mf.2).getD []
  match expVal with
  | none => JsNum.nan
  | some e =>
    if ip.all Char.isDigit ∧ fp.all Char.isDigit ∧ (ip ≠ [] ∨ fp ≠ []) then
      mkDec neg (parseNatChars (ip ++ fp)) fp.length e
    else JsNum.nan

/-- The body after an explicit sign: Infinity or a decimal literal (the sign
admits no hex, octal or binary literal). -/
def parseSigned (neg : Bool) (s : Str) : JsNum :=
  if s = "Infinity".data then JsNum.inf neg else parseDecLit neg s

/-- An unsigned body: Infinity, a 0x/0X, 0o/0O or 0b/0B literal, or a
decimal literal. -/
def parseUnsigned (s : Str) : JsNum :=
  if s = "Infinity".data then JsNum.inf false
  else
    match s with
    | '0' :: c :: r =>
      if c = 'x' ∨ c = 'X' then parseRadix 16 r
      else if c = 'o' ∨ c = 'O' then parseRadix 8 r
      else if c = 'b' ∨ c = 'B' then parseRadix 2 r
      else parseDecLit false s
    | _ => parseDecLit false s

/-- JavaScript `Number(..)` on a string: trim whitespace, an empty remainder
coerces to 0, an optional sign applies to Infinity or a decimal literal, and
anything else is NaN. -/
def jsNumber (s : Str) : JsNum :=
  let t := trimWs s
  match t with
  | [] => JsNum.dec 0 0
  | '+' :: r => parseSigned false r
  | '-' :: r => parseSigned true r
  | _ => parseUnsigned t

/-! ## Rendering a JavaScript number to a string -/

/-- Pad a digit string with leading zeros to length at least k + 1, so a
decimal point inserted k places from the right always has a digit before
it. -/
def natPad (k : Nat) (s : Str) : Str := List.replicate (k + 1 - s.length) '0' ++ s

/-- Positional decimal rendering of `a / 10^k`: the digits of `a`, padded,
with a decimal point k places from the right (absent when k = 0), as
JavaScript renders plain-range doubles. -/
def natDecRender (a k : Nat) : Str :=
  if k = 0 then natToChars a
  else
    (natPad k (natToChars a)).take ((natPad k (natToChars a)).length - k) ++
      '.' :: (natPad k (natToChars a)).drop ((natPad k (natToChars a)).length - k)

/-- Signed positional decimal rendering of `m / 10^k`. -/
def decRender (m : Int) (k : Nat) : Str :=
  if m < 0 then '-' :: natDecRender m.natAbs k else natDecRender m.toNat k

/-- JavaScript number-to-string conversion, used by the template
interpolation in `loadCacheName`: NaN, Infinity and -Infinity render as their
names, finite values in plain positional decimal (see the module comment for
the exponent-notation approximation). -/
def jsNumRender : JsNum → Str
  | JsNum.nan => "NaN".data
  | JsNum.inf false => "Infinity".data
  | JsNum.inf true => '-' :: "Infinity".data
  | JsNum.dec m k => decRender m k

/-! ## Data model (src/lib/ImgServer.ts) -/

/-- The allowed output formats, the literal list stored in the class constant
`_defaultConfig.allowedExts`; named at top level for reuse in statements. -/
def allowedExtsD : List Str :=
  ["webp".data, "jpg".data, "jpeg".data, "png".data, "gif".data]

/-- Module-level constant `resizeModesArray` of ImgServer.ts. -/
def resizeModesArray : List Str := ["cover".data, "contain".data, "fill".data]

/-- The `ImgServerConfig` interface, after merging (so `return404` is a plain
boolean). Numeric fields are JavaScript numbers, modelled as integers. -/
structure ImgServerConfig where
  imgPath : Str
  cacheDir : Str
  cacheTime : Int
  maxWidth : Int
  maxHeight : Int
  quality : Int
  allowedExts : List Str
  defaultExt : Str
  return404 : Bool
  timeout : Int
  defaultImg : Str
  resizeMode : Str
deriving DecidableEq

/-- The configuration object a caller passes to the constructor; `return404`
is the one optional field of the `ImgServerConfig` interface. -/
structure CtorConfig where
  imgPath : Str
  cacheDir : Str
  cacheTime : Int
  maxWidth : Int
  maxHeight : Int
  quality : Int
  allowedExts : List Str
  defaultExt : Str
  return404 : Option Bool
  timeout : Int
  defaultImg : Str
  resizeMode : Str
deriving DecidableEq

/-- The class constant `_defaultConfig`. Its two directory paths are built
from the runtime constant `__dirname`, passed here as a parameter; no claim
depends on them. -/
def _defaultConfig (dirname : Str) : ImgServerConfig :=
  { imgPath := dirname ++ "/uploads".data
    cacheDir := dirname ++ "/cache".data
    cacheTime := 1000 * 60 * 60 * 24 * 7
    maxWidth := 1920
    maxHeight := 1080
    quality := 80
    allowedExts := allowedExtsD
    defaultExt := "webp".data
    return404 := false
    timeout := 5000
    defaultImg := "default.jpg".data
    resizeMode := "cover".data }

/-- The resolved per-request transform options (`ImgRequestQueryOptions`).
The numeric fields are JavaScript numbers; the source keeps `ext` and
`resizeMode` as strings, and `parseOptions` guarantees their membership in
the allowed sets. -/
structure ImgRequestQueryOptions where
  width : JsNum
  height : JsNum
  quality : JsNum
  ext : Str
  resizeMode : Str
deriving DecidableEq

/-- The class constant `_defaultRequestConfig`, derived from `_defaultConfig`. -/
def _defaultRequestConfig (dirname : Str) : ImgRequestQueryOptions :=
  { width := JsNum.dec (_defaultConfig dirname).maxWidth 0
    height := JsNum.dec (_defaultConfig dirname).maxHeight 0
    quality := JsNum.dec (_defaultConfig dirname).quality 0
    ext := (_defaultConfig dirname).defaultExt
    resizeMode := (_defaultConfig dirname).resizeMode }

/-- The untrusted query-parameter mapping of a request (`req.query`), reduced
to the five keys the middleware reads; express delivers each as an optional
string. -/
structure Query where
  width : Option Str := none
  height : Option Str := none
  quality : Option Str := none
  ext : Option Str := none
  resizeMode : Option Str := none
deriving DecidableEq

/-- The `parseOptions` method. Each field follows the source's truthiness
chain literally, for example
`(query.width && Number(query.width) && Number(query.width) < this._defaultConfig.maxWidth) ? Number(query.width) : this._defaultConfig.maxWidth`:
an absent key or empty string is falsy, a NaN or zero coercion is falsy, and
only then is the bound compared. All bounds and fallback values are read from
the class constant `_defaultConfig` (whose query-relevant fields do not
depend on `__dirname`, instantiated with `[]` here), not from the merged
instance configuration. The initial spread of `_defaultRequestConfig` is kept
even though every field is overwritten, mirroring the source. -/
def parseOptions (q : Query) : ImgRequestQueryOptions :=
  let cfg := _defaultConfig []
  let options := _defaultRequestConfig []
  { options with
    width :=
      match q.width with
      | none => JsNum.dec cfg.maxWidth 0
      | some s =>
        let n := jsNumber s
        if s ≠ [] ∧ jsTruthy n = true ∧ jsLtInt n cfg.maxWidth = true then n
        else JsNum.dec cfg.maxWidth 0
    height :=
      match q.height with
      | none => JsNum.dec cfg.maxHeight 0
      | some s =>
        let n := jsNumber s
        if s ≠ [] ∧ jsTruthy n = true ∧ jsLtInt n cfg.maxHeight = true then n
        else JsNum.dec cfg.maxHeight 0
    quality :=
      match q.quality with
      | none => JsNum.dec cfg.quality 0
      | some s =>
        let n := jsNumber s
        if s ≠ [] ∧ jsTruthy n = true ∧ jsLtInt n 100 = true then n
        else JsNum.dec cfg.quality 0
    ext :=
      match q.ext with
      | none => cfg.defaultExt
      | some s => if s ≠ [] ∧ s ∈ cfg.allowedExts then s else cfg.defaultExt
    resizeMode :=
      match q.resizeMode with
      | none => cfg.resizeMode
      | some s => if s ≠ [] ∧ s ∈ resizeModesArray then s else cfg.resizeMode }

/-! ## Cache-key derivation (`loadCacheName`) -/

/-- Index of the last occurrence of a character, or `none`. -/
def lastIndexOfAux (c : Char) : Str → Option Nat
  | [] => none
  | x :: xs =>
    match lastIndexOfAux c xs with
    | some i => some (i + 1)
    | none => if x = c then some 0 else none

/-- JavaScript `String.prototype.lastIndexOf` for a single character:
the index of its last occurrence, or -1. -/
def jsLastIndexOf (c : Char) (s : Str) : Int :=
  match lastIndexOfAux c s with
  | none => -1
  | some i => (i : Int)

/-- JavaScript `s.substring(0, e)`: a negative end index is clamped to 0
(yielding the empty string) and an end index beyond the length is clamped to
the length, both of which `List.take` on `e.toNat` reproduces. -/
def jsSubstringTo (s : Str) (e : Int) : Str := s.take e.toNat

/-- The extension-stripping step of `loadCacheName`:
`path.substring(0, path.lastIndexOf('.'))`. -/
def fileNameOf (path : Str) : Str := jsSubstringTo path (jsLastIndexOf '.' path)

/-- Modelled from the spec: the external `slug` npm package with options
`replacement: '-', lower: true, trim: true, symbols: true`, described in the
spec as a slugification that lower-cases, replaces whitespace and symbols
with a single separator character, and trims leading and trailing
separators. Per-character mapping, then collapsing of separator runs, then
trimming. No claim's verdict depends on the internals of this model: the
proofs use it only applied to equal arguments, or stop at the pre-slug
string. -/
def slugMapChar (c : Char) : Char :=
  if c.isAlpha || c.isDigit then c.toLower else '-'

/-- Collapse every run of consecutive separators to a single separator. -/
def collapseSep : Str → Str
  | [] => []
  | [c] => [c]
  | c :: c' :: rest =>
    if c = '-' ∧ c' = '-' then collapseSep (c' :: rest)
    else c :: collapseSep (c' :: rest)

/-- Remove leading and trailing separators. -/
def trimSep (s : Str) : Str :=
  ((s.dropWhile (fun c => c = '-')).reverse.dropWhile (fun c => c = '-')).reverse

/-- The slugification step applied to the intermediate cache name. -/
def slugify (s : Str) : Str := trimSep (collapseSep (s.map slugMapChar))

/-- The intermediate string `loadCacheName` builds before slugification: for
every option field, in the fixed insertion order of `_defaultRequestConfig`
(width, height, quality, ext, resizeMode, which is what `Object.keys`
iterates), the fragment `-<key>-<value>`, followed by `-` and the request
path stripped of its extension. -/
def preSlugName (path : Str) (o : ImgRequestQueryOptions) : Str :=
  "-width-".data ++ jsNumRender o.width ++
  "-height-".data ++ jsNumRender o.height ++
  "-quality-".data ++ jsNumRender o.quality ++
  "-ext-".data ++ o.ext ++
  "-resizeMode-".data ++ o.resizeMode ++
  "-".data ++ fileNameOf path

/-- The `loadCacheName` method: slugified intermediate string plus a dot and
the resolved format as extension. -/
def loadCacheName (path : Str) (o : ImgRequestQueryOptions) : Str :=
  slugify (preSlugName path o) ++ '.' :: o.ext

/-! ## Server construction, headers, and request handling -/

/-- Oracles for the external capabilities: filesystem checks (`fs.existsSync`,
`fs.statSync(..).isDirectory()`, `fs.accessSync(.., W_OK)`, the promisified
`fs.exists`), express's `sendFile` succeeding on a path, and the `sharp`
transform pipeline of `getImg` succeeding for a source path, options and
destination path. -/
structure Fs where
  pathExists : Str → Bool
  isDirectory : Str → Bool
  writableOk : Str → Bool
  sendOk : Str → Bool
  transformOk : Str → ImgRequestQueryOptions → Str → Bool

/-- The promisified `fs.exists` wrapper `archiveExists`. -/
def archiveExists (fs : Fs) (path : Str) : Bool := fs.pathExists path

/-- The `getImg` method: invokes the sharp pipeline, reporting success or
failure; modelled by the transform oracle. -/
def getImg (fs : Fs) (path : Str) (options : ImgRequestQueryOptions)
    (cachePath : Str) : Bool :=
  fs.transformOk path options cachePath

/-- The `_fileHeaders` record. The Expires header is the `toUTCString`
rendering of a timestamp; the rendering by the external Date library is not
modelled, the header is represented by the timestamp it renders. -/
structure FileHeaders where
  cacheControl : Str
  expiresTime : Int
deriving DecidableEq

/-- The `setFileHeaders` method, called once from `init` with the merged
configuration: the raw `cacheTime` value is interpolated into the
Cache-Control max-age directive, and Expires is `Date.now() + cacheTime`. -/
def setFileHeaders (cfg : ImgServerConfig) (now : Int) : FileHeaders :=
  { cacheControl := "public, max-age=".data ++ intToChars cfg.cacheTime
    expiresTime := now + cfg.cacheTime }

/-- The `validateWritableDir` method: existence, directory and write-access
checks, each failing with a descriptive error. -/
def validateWritableDir (fs : Fs) (dir : Str) : Except Str Unit :=
  if fs.pathExists dir = false then Except.error (dir ++ " does not exist".data)
  else if fs.isDirectory dir = false then
    Except.error (dir ++ " is not a directory".data)
  else if fs.writableOk dir = false then
    Except.error (dir ++ " is not writable".data)
  else Except.ok ()

/-- The `validateDefaultImgExists` method: when the merged configuration does
not select 404 responses, the fallback image must exist. -/
def validateDefaultImgExists (fs : Fs) (return404 : Bool) (file : Str) :
    Except Str Unit :=
  if return404 = false ∧ archiveExists fs file = false then
    Except.error (file ++ " does not exist".data)
  else Except.ok ()

/-- The object spread `{ ...this._defaultConfig, ...config }` of `init`:
every required field comes from the caller's configuration, and the optional
`return404` falls back to the default configuration's value when absent. -/
def mergeConfig (dirname : Str) (c : CtorConfig) : ImgServerConfig :=
  { imgPath := c.imgPath
    cacheDir := c.cacheDir
    cacheTime := c.cacheTime
    maxWidth := c.maxWidth
    maxHeight := c.maxHeight
    quality := c.quality
    allowedExts := c.allowedExts
    defaultExt := c.defaultExt
    return404 := c.return404.getD (_defaultConfig dirname).return404
    timeout := c.timeout
    defaultImg := c.defaultImg
    resizeMode := c.resizeMode }

/-- The long-lived `ImgServer` instance: the merged configuration, the
startup-computed file headers, and the two per-request fields the class
stores on the instance (`cacheName`, `cachePath`, both unset before the
first request, modelled empty). -/
structure ImgServerState where
  config : ImgServerConfig
  fileHeaders : FileHeaders
  cacheName : Str
  cachePath : Str
deriving DecidableEq

/-- The `init` method invoked by the constructor: merge the configuration,
validate both directories (cache first, then source), compute the file
headers, validate the fallback image. A thrown Error aborts startup; the
asynchronous propagation of the rejection is modelled as `Except`
propagation. -/
def init (fs : Fs) (dirname : Str) (c : CtorConfig) (now : Int) :
    Except Str ImgServerState :=
  let cfg := mergeConfig dirname c
  match validateWritableDir fs c.cacheDir with
  | Except.error e => Except.error e
  | Except.ok _ =>
    match validateWritableDir fs c.imgPath with
    | Except.error e => Except.error e
    | Except.ok _ =>
      let headers := setFileHeaders cfg now
      match validateDefaultImgExists fs cfg.return404 c.defaultImg with
      | Except.error e => Except.error e
      | Except.ok _ =>
        Except.ok { config := cfg, fileHeaders := headers, cacheName := [], cachePath := [] }

/-- Whether an `Except` computation succeeded. -/
def exceptOk {ε α : Type} : Except ε α → Bool
  | Except.ok _ => true
  | Except.error _ => false

/-- Combined success of the three checks of `validateWritableDir`. -/
def dirOk (fs : Fs) (dir : Str) : Bool :=
  fs.pathExists dir && fs.isDirectory dir && fs.writableOk dir

/-- Node's `path.normalize`, applied to the fallback image path; modelled as
the identity, which is its behaviour on already-normalised paths, and no
claim depends on its normalisation behaviour. -/
def pathNormalize (p : Str) : Str := p

/-- Node's `path.join` for the two shapes the middleware uses: a directory
joined with a request path that already starts with a separator, or with a
cache file name that does not. Normalisation beyond inserting the separator
is not modelled; no claim depends on it. -/
def pathJoin (a b : Str) : Str :=
  match b with
  | '/' :: _ => a ++ b
  | _ => a ++ '/' :: b

/-- What the middleware ultimately sends: a file with the cache-control
headers attached (`res.sendFile(path, { headers })`), a plain 404 with a
minimal body (`res.status(404).send('404')`), or a file with no headers
option (`res.sendFile(path)`, the fallback image). -/
inductive Reply where
  | sentFileWith : Str → FileHeaders → Reply
  | sent404 : Str → Reply
  | sentFile : Str → Reply
deriving DecidableEq

/-- Remove a response header (`res.removeHeader`). -/
def removeHeader (n : Str) : List (Str × Str) → List (Str × Str)
  | [] => []
  | kv :: t => if kv.1 = n then removeHeader n t else kv :: removeHeader n t

/-- Look up a response header by name. -/
def lookupHeader (n : Str) : List (Str × Str) → Option Str
  | [] => none
  | kv :: t => if kv.1 = n then some kv.2 else lookupHeader n t

/-- Result of the failure path: the response headers after the removals, and
the reply sent. -/
structure FailResult where
  res : List (Str × Str)
  reply : Reply
deriving DecidableEq

/-- The `respondWith404` method: remove the Cache-Control and Expires
headers, then either send a plain 404 with body "404" or send the configured
fallback image with no headers option. -/
def respondWith404 (cfg : ImgServerConfig) (res : List (Str × Str)) : FailResult :=
  let res₁ := removeHeader "Cache-Control".data res
  let res₂ := removeHeader "Expires".data res₁
  { res := res₂
    reply :=
      if cfg.return404 then Reply.sent404 "404".data
      else Reply.sentFile (pathNormalize cfg.defaultImg) }

/-- Result of one middleware invocation: the updated server instance, the
response header state, and the reply sent. -/
structure MwResult where
  state : ImgServerState
  resHeaders : List (Str × Str)
  reply : Reply
deriving DecidableEq

/-- The `middleware` request handler. Options are parsed, the cache name and
path are stored on the instance, then the cache path is served directly; on
failure of that send, a missing source or a failed transform leads to
`respondWith404`, and a successful transform re-serves the cache path with
the startup headers. The deadline timer of the source (`setTimeout` racing
the transform) is subsumed by the transform oracle reporting failure: a
transform that times out is a failed transform for the current request. -/
def middleware (fs : Fs) (s : ImgServerState) (reqPath : Str) (q : Query)
    (res : List (Str × Str)) : MwResult :=
  let options := parseOptions q
  let cacheName := loadCacheName reqPath options
  let cachePath := pathJoin s.config.cacheDir cacheName
  let s' : ImgServerState := { s with cacheName := cacheName, cachePath := cachePath }
  let fileName := pathJoin s.config.imgPath reqPath
  if fs.sendOk cachePath then
    { state := s', resHeaders := res, reply := Reply.sentFileWith cachePath s.fileHeaders }
  else if archiveExists fs fileName = false then
    let fr := respondWith404 s.config res
    { state := s', resHeaders := fr.res, reply := fr.reply }
  else if getImg fs fileName options cachePath = false then
    let fr := respondWith404 s.config res
    { state := s', resHeaders := fr.res, reply := fr.reply }
  else
    { state := s', resHeaders := res, reply := Reply.sentFileWith cachePath s.fileHeaders }

/-! ## The concrete configuration of src/app.ts -/

/-- The configuration object constructed in src/app.ts (with `__dirname`
passed as a parameter). -/
def appCtorConfig (dirname : Str) : CtorConfig :=
  { imgPath := dirname ++ "/uploads".data
    cacheDir := dirname ++ "/cache".data
    cacheTime := 1000 * 60 * 60 * 24 * 7
    maxWidth := 1920
    maxHeight := 1080
    quality := 80
    allowedExts := ["webp".data, "jpg".data, "jpeg".data, "png".data, "gif".data]
    defaultExt := "webp".data
    return404 := some false
    timeout := 5000
    defaultImg := dirname ++ "/uploads/placeholder-image.png".data
    resizeMode := "cover".data }

/-- The merged configuration of the server constructed in src/app.ts. -/
def appConfig (dirname : Str) : ImgServerConfig :=
  mergeConfig dirname (appCtorConfig dirname)

/-! ## Theorems -/

lemma lastIndexOfAux_none {c : Char} :
    ∀ {s : Str}, c ∉ s → lastIndexOfAux c s = none := by
  intro s
  induction s with
  | nil => intro _; rfl
  | cons x xs ih =>
    intro h
    have hx : ¬ x = c := fun hh => h (by simp [hh])
    have hxs : c ∉ xs := fun hh => h (by simp [hh])
    simp [lastIndexOfAux, ih hxs, hx]

lemma fileNameOf_eq_nil {p : Str} (h : '.' ∉ p) : fileNameOf p = [] := by
  unfold fileNameOf jsLastIndexOf jsSubstringTo
  rw [lastIndexOfAux_none h]
  rfl

/-- C5: cache-key derivation is deterministic: `loadCacheName` is a pure
function of the request path and the resolved options record, with a fixed
field iteration order, so two computations from identical inputs (in any two
runs) yield the identical key string. -/
theorem imgserver_c5_deterministic (p₁ p₂ : Str) (o₁ o₂ : ImgRequestQueryOptions)
    (hp : p₁ = p₂) (ho : o₁ = o₂) : loadCacheName p₁ o₁ = loadCacheName p₂ o₂ := by
  rw [hp, ho]

/-- Witness for C5 at a concrete path and options record. -/
theorem imgserver_c5_witness :
    loadCacheName "/photo.jpg".data
        ⟨JsNum.dec 1920 0, JsNum.dec 1080 0, JsNum.dec 80 0, "webp".data, "cover".data⟩ =
      loadCacheName "/photo.jpg".data
        ⟨JsNum.dec 1920 0, JsNum.dec 1080 0, JsNum.dec 80 0, "webp".data, "cover".data⟩ :=
  imgserver_c5_deterministic _ _ _ _ rfl rfl

/-- C10: for a request path containing no dot, `lastIndexOf('.')` is -1 and
`substring(0, -1)` is the empty string, so the extension-stripping step
yields the empty string and any two extension-less paths with identical
resolved options derive the identical cache key. -/
theorem imgserver_c10_extensionless (p₁ p₂ : Str) (o : ImgRequestQueryOptions)
    (h₁ : '.' ∉ p₁) (h₂ : '.' ∉ p₂) :
    fileNameOf p₁ = [] ∧ fileNameOf p₂ = [] ∧
      loadCacheName p₁ o = loadCacheName p₂ o := by
  have e₁ := fileNameOf_eq_nil h₁
  have e₂ := fileNameOf_eq_nil h₂
  refine ⟨e₁, e₂, ?_⟩
  unfold loadCacheName preSlugName
  rw [e₁, e₂]

/-- Witness for C10: two distinct dot-free request paths share a cache key. -/
theorem imgserver_c10_witness :
    fileNameOf "/abc".data = [] ∧ fileNameOf "/xyz".data = [] ∧
      loadCacheName "/abc".data ⟨JsNum.dec 1920 0, JsNum.dec 1080 0, JsNum.dec 80 0, "webp".data, "cover".data⟩ =
        loadCacheName "/xyz".data ⟨JsNum.dec 1920 0, JsNum.dec 1080 0, JsNum.dec 80 0, "webp".data, "cover".data⟩ :=
  imgserver_c10_extensionless _ _ _ (by decide) (by decide)

lemma natToChars_mul10 {a b : Nat} (ha : 0 < a) (hb : b < 10) :
    natToChars (a * 10 + b) = natToChars a ++ [digitChar b] := by
  have h10 : 10 ≤ a * 10 + b := by omega
  rw [natToChars_ge h10]
  have hdiv : (a * 10 + b) / 10 = a := by omega
  have hmod : (a * 10 + b) % 10 = b := by omega
  rw [hdiv, hmod]

lemma natToChars_604800000 : natToChars 604800000 = "604800000".data := by
  have h1 : natToChars 6 = "6".data := rfl
  have h2 : natToChars 60 = "60".data := by
    rw [show (60 : Nat) = 6 * 10 + 0 from by norm_num,
      natToChars_mul10 (by norm_num) (by norm_num), h1]
    decide
  have h3 : natToChars 604 = "604".data := by
    rw [show (604 : Nat) = 60 * 10 + 4 from by norm_num,
      natToChars_mul10 (by norm_num) (by norm_num), h2]
    decide
  have h4 : natToChars 6048 = "6048".data := by
    rw [show (6048 : Nat) = 604 * 10 + 8 from by norm_num,
      natToChars_mul10 (by norm_num) (by norm_num), h3]
    decide
  have h5 : natToChars 60480 = "60480".data := by
    rw [show (60480 : Nat) = 6048 * 10 + 0 from by norm_num,
      natToChars_mul10 (by norm_num) (by norm_num), h4]
    decide
  have h6 : natToChars 604800 = "604800".data := by
    rw [show (604800 : Nat) = 60480 * 10 + 0 from by norm_num,
      natToChars_mul10 (by norm_num) (by norm_num), h5]
    decide
  have h7 : natToChars 6048000 = "6048000".data := by
    rw [show (6048000 : Nat) = 604800 * 10 + 0 from by norm_num,
      natToChars_mul10 (by norm_num) (by norm_num), h6]
    decide
  have h8 : natToChars 60480000 = "60480000".data := by
    rw [show (60480000 : Nat) = 6048000 * 10 + 0 from by norm_num,
      natToChars_mul10 (by norm_num) (by norm_num), h7]
    decide
  have h9 : natToChars 604800000 = "604800000".data := by
    rw [show (604800000 : Nat) = 60480000 * 10 + 0 from by norm_num,
      natToChars_mul10 (by norm_num) (by norm_num), h8]
    decide
  exact h9

/-- C2 (code bug): `setFileHeaders` interpolates the configured `cacheTime`
verbatim into the max-age directive. The configuration of src/app.ts sets
`cacheTime` to one week in milliseconds (604800000), used correctly for the
Expires timestamp, so the served header is
`Cache-Control: public, max-age=604800000` and not the claimed
`public, max-age=604800`: the milliseconds value lands in a field whose unit
is seconds, inconsistent with the Expires header derived from the same
value. -/
theorem imgserver_c2_max_age_bug (dirname : Str) (now : Int) :
    (setFileHeaders (appConfig dirname) now).cacheControl =
        "public, max-age=604800000".data ∧
      "public, max-age=604800000".data ≠ "public, max-age=604800".data ∧
      (setFileHeaders (appConfig dirname) now).expiresTime = now + 604800000 := by
  have hc : (appConfig dirname).cacheTime = 604800000 := by
    norm_num [appConfig, mergeConfig, appCtorConfig]
  have hi : intToChars ((appConfig dirname).cacheTime) = natToChars 604800000 := by
    rw [hc]
    rw [intToChars, if_neg (by norm_num)]
    rw [show Int.toNat 604800000 = 604800000 from rfl]
  refine ⟨?_, by decide, rfl⟩
  show "public, max-age=".data ++ intToChars ((appConfig dirname).cacheTime) = _
  rw [hi, natToChars_604800000]
  decide

/-- C8: construction succeeds exactly when the cache directory and the source
directory each exist, are directories and are writable, and, unless the
return-404 flag is set (merged from the constructor configuration, defaulting
to false), the configured fallback image exists; otherwise `init` raises a
descriptive error. The constructor's un-awaited async `init` is modelled as
synchronous error propagation: the thrown Error aborts startup. -/
lemma exceptOk_validateWritableDir (fs : Fs) (dir : Str) :
    exceptOk (validateWritableDir fs dir) = dirOk fs dir := by
  unfold validateWritableDir dirOk exceptOk
  cases h1 : fs.pathExists dir <;> cases h2 : fs.isDirectory dir <;>
    cases h3 : fs.writableOk dir <;> simp_all

lemma exceptOk_validateDefaultImgExists (fs : Fs) (r : Bool) (f : Str) :
    exceptOk (validateDefaultImgExists fs r f) = (r || fs.pathExists f) := by
  unfold validateDefaultImgExists exceptOk archiveExists
  cases r <;> cases h : fs.pathExists f <;> simp_all

theorem imgserver_c8_init_validation (fs : Fs) (dirname : Str) (c : CtorConfig)
    (now : Int) :
    exceptOk (init fs dirname c now) =
      (dirOk fs c.cacheDir && dirOk fs c.imgPath &&
        (c.return404.getD false || fs.pathExists c.defaultImg)) := by
  have hr : (mergeConfig dirname c).return404 = c.return404.getD false := rfl
  rcases h1 : validateWritableDir fs c.cacheDir with e1 | u1
  · have hinit : init fs dirname c now = Except.error e1 := by
      dsimp only [init]; rw [h1]
    have hdc : dirOk fs c.cacheDir = false := by
      rw [← exceptOk_validateWritableDir, h1]; rfl
    rw [hinit, hdc]
    rfl
  · rcases h2 : validateWritableDir fs c.imgPath with e2 | u2
    · have hinit : init fs dirname c now = Except.error e2 := by
        dsimp only [init]; rw [h1, h2]
      have hdc : dirOk fs c.cacheDir = true := by
        rw [← exceptOk_validateWritableDir, h1]; rfl
      have hdi : dirOk fs c.imgPath = false := by
        rw [← exceptOk_validateWritableDir, h2]; rfl
      rw [hinit, hdc, hdi]
      rfl
    · rcases h3 : validateDefaultImgExists fs (mergeConfig dirname c).return404
          c.defaultImg with e3 | u3
      · have hinit : init fs dirname c now = Except.error e3 := by
          dsimp only [init]; rw [h1, h2, h3]
        have hdc : dirOk fs c.cacheDir = true := by
          rw [← exceptOk_validateWritableDir, h1]; rfl
        have hdi : dirOk fs c.imgPath = true := by
          rw [← exceptOk_validateWritableDir, h2]; rfl
        have hf : (c.return404.getD false || fs.pathExists c.defaultImg) = false := by
          rw [← exceptOk_validateDefaultImgExists, ← hr, h3]; rfl
        rw [hinit, hdc, hdi, hf]
        rfl
      · have hinit : exceptOk (init fs dirname c now) = true := by
          dsimp only [init]; rw [h1, h2, h3]; rfl
        have hdc : dirOk fs c.cacheDir = true := by
          rw [← exceptOk_validateWritableDir, h1]; rfl
        have hdi : dirOk fs c.imgPath = true := by
          rw [← exceptOk_validateWritableDir, h2]; rfl
        have hf : (c.return404.getD false || fs.pathExists c.defaultImg) = true := by
          rw [← exceptOk_validateDefaultImgExists, ← hr, h3]; rfl
        rw [hinit, hdc, hdi, hf]
        rfl

/-- C9 (amended): the middleware leaves the merged configuration and the
startup-computed file headers untouched, but it does write the shared
instance fields `cacheName` and `cachePath` on every invocation. -/
theorem imgserver_c9_amended (fs : Fs) (s : ImgServerState) (p : Str) (q : Query)
    (res : List (Str × Str)) :
    (middleware fs s p q res).state.config = s.config ∧
      (middleware fs s p q res).state.fileHeaders = s.fileHeaders ∧
      (middleware fs s p q res).state.cacheName = loadCacheName p (parseOptions q) ∧
      (middleware fs s p q res).state.cachePath =
        pathJoin s.config.cacheDir (loadCacheName p (parseOptions q)) := by
  dsimp only [middleware]
  generalize loadCacheName p (parseOptions q) = nm
  split_ifs <;> exact ⟨rfl, rfl, rfl, rfl⟩

/-- An all-failure filesystem oracle. -/
def fs0 : Fs :=
  { pathExists := fun _ => false
    isDirectory := fun _ => false
    writableOk := fun _ => false
    sendOk := fun _ => false
    transformOk := fun _ _ _ => false }

/-- A server instance as constructed by src/app.ts, before any request. -/
def s0 : ImgServerState :=
  { config := appConfig []
    fileHeaders := setFileHeaders (appConfig []) 0
    cacheName := []
    cachePath := [] }

lemma middleware_state_cacheName (fs : Fs) (s : ImgServerState) (p : Str)
    (q : Query) (res : List (Str × Str)) :
    (middleware fs s p q res).state.cacheName = loadCacheName p (parseOptions q) := by
  dsimp only [middleware]
  split_ifs <;> rfl

/-- Counterexample to C9: one middleware invocation rewrites the long-lived
server object's `cacheName` field, so the instance fields are not unchanged
across invocations. -/
theorem imgserver_c9_counterexample :
    (middleware fs0 s0 "/photo.jpg".data {} []).state.cacheName ≠ s0.cacheName := by
  rw [middleware_state_cacheName]
  show loadCacheName "/photo.jpg".data (parseOptions {}) ≠ []
  unfold loadCacheName
  simp

lemma lookupHeader_removeHeader_self (n : Str) (h : List (Str × Str)) :
    lookupHeader n (removeHeader n h) = none := by
  induction h with
  | nil => rfl
  | cons kv t ih =>
    by_cases hk : kv.1 = n
    · simp [removeHeader, hk, ih]
    · simp [removeHeader, lookupHeader, hk, ih]

lemma lookupHeader_none_removeHeader (n m : Str) (h : List (Str × Str))
    (hn : lookupHeader n h = none) :
    lookupHeader n (removeHeader m h) = none := by
  induction h with
  | nil => rfl
  | cons kv t ih =>
    by_cases hk1 : kv.1 = n
    · simp [lookupHeader, hk1] at hn
    · have hn' : lookupHeader n t = none := by
        simpa [lookupHeader, hk1] using hn
      by_cases hk2 : kv.1 = m
      · simp [removeHeader, hk2, ih hn']
      · simp [removeHeader, lookupHeader, hk1, hk2, ih hn']

lemma respondWith404_spec (cfg : ImgServerConfig) (res : List (Str × Str)) :
    lookupHeader "Cache-Control".data (respondWith404 cfg res).res = none ∧
      lookupHeader "Expires".data (respondWith404 cfg res).res = none ∧
      (respondWith404 cfg res).reply =
        (if cfg.return404 then Reply.sent404 "404".data
         else Reply.sentFile (pathNormalize cfg.defaultImg)) := by
  refine ⟨?_, ?_, rfl⟩
  · exact lookupHeader_none_removeHeader _ _ _
      (lookupHeader_removeHeader_self _ _)
  · exact lookupHeader_removeHeader_self _ _

/-- C7: on every failure path (the direct cache send fails and the source
image is missing, or the transform fails or times out), the middleware
removes any previously set Cache-Control and Expires headers from the
response and then replies with exactly one of: HTTP 404 with the minimal body
"404" when the return-404 flag is set, or the configured fallback image sent
with no headers option when it is unset. -/
theorem imgserver_c7_failure_path (fs : Fs) (s : ImgServerState) (p : Str)
    (q : Query) (res : List (Str × Str))
    (hmiss : fs.sendOk
      (pathJoin s.config.cacheDir (loadCacheName p (parseOptions q))) = false)
    (hfail : fs.pathExists (pathJoin s.config.imgPath p) = false ∨
      fs.transformOk (pathJoin s.config.imgPath p) (parseOptions q)
        (pathJoin s.config.cacheDir (loadCacheName p (parseOptions q))) = false) :
    lookupHeader "Cache-Control".data (middleware fs s p q res).resHeaders = none ∧
      lookupHeader "Expires".data (middleware fs s p q res).resHeaders = none ∧
      (middleware fs s p q res).reply =
        (if s.config.return404 then Reply.sent404 "404".data
         else Reply.sentFile (pathNormalize s.config.defaultImg)) := by
  have hr := respondWith404_spec s.config res
  dsimp only [middleware]
  generalize hgen : loadCacheName p (parseOptions q) = nm at hmiss hfail ⊢
  rw [hmiss]
  simp only [Bool.false_eq_true, if_false]
  rcases hfail with hf | hf
  · simp only [archiveExists, hf, if_pos]
    exact hr
  · by_cases hsrc : fs.pathExists (pathJoin s.config.imgPath p) = false
    · simp only [archiveExists, hsrc, if_pos]
      exact hr
    · have hsrc' : fs.pathExists (pathJoin s.config.imgPath p) = true := by
        cases h : fs.pathExists (pathJoin s.config.imgPath p)
        · exact absurd h hsrc
        · rfl
      simp only [archiveExists, hsrc', getImg, hf]
      simp only [Bool.true_eq_false, if_false, if_pos]
      exact hr

/-- Witness for C7 at a concrete failing request: every oracle fails, the
flag is unset, so the fallback image is served and the previously set
Cache-Control header is gone. -/
theorem imgserver_c7_witness :
    lookupHeader "Cache-Control".data
        (middleware fs0 s0 "/a.jpg".data {}
          [("Cache-Control".data, "public".data)]).resHeaders = none ∧
      lookupHeader "Expires".data
        (middleware fs0 s0 "/a.jpg".data {}
          [("Cache-Control".data, "public".data)]).resHeaders = none ∧
      (middleware fs0 s0 "/a.jpg".data {}
          [("Cache-Control".data, "public".data)]).reply =
        (if s0.config.return404 then Reply.sent404 "404".data
         else Reply.sentFile (pathNormalize s0.config.defaultImg)) :=
  imgserver_c7_failure_path fs0 s0 "/a.jpg".data {}
    [("Cache-Control".data, "public".data)] rfl (Or.inl rfl)

lemma parseOptions_width (q : Query) :
    (parseOptions q).width =
      match q.width with
      | none => JsNum.dec 1920 0
      | some s =>
        if s ≠ [] ∧ jsTruthy (jsNumber s) = true ∧ jsLtInt (jsNumber s) 1920 = true
        then jsNumber s
        else JsNum.dec 1920 0 := rfl

lemma parseOptions_height (q : Query) :
    (parseOptions q).height =
      match q.height with
      | none => JsNum.dec 1080 0
      | some s =>
        if s ≠ [] ∧ jsTruthy (jsNumber s) = true ∧ jsLtInt (jsNumber s) 1080 = true
        then jsNumber s
        else JsNum.dec 1080 0 := rfl

lemma parseOptions_quality (q : Query) :
    (parseOptions q).quality =
      match q.quality with
      | none => JsNum.dec 80 0
      | some s =>
        if s ≠ [] ∧ jsTruthy (jsNumber s) = true ∧ jsLtInt (jsNumber s) 100 = true
        then jsNumber s
        else JsNum.dec 80 0 := rfl

lemma parseOptions_ext (q : Query) :
    (parseOptions q).ext =
      match q.ext with
      | none => "webp".data
      | some s => if s ≠ [] ∧ s ∈ allowedExtsD then s else "webp".data := rfl

lemma parseOptions_resizeMode (q : Query) :
    (parseOptions q).resizeMode =
      match q.resizeMode with
      | none => "cover".data
      | some s => if s ≠ [] ∧ s ∈ resizeModesArray then s else "cover".data := rfl

/-- The width rule exactly as claim C1 states it, parameterised by the
configuration supplied at construction: the requested value when present,
numeric (not NaN), and strictly below the configured maxWidth, the configured
maxWidth otherwise. Stated for comparison against `parseOptions`. -/
def claimResolvedWidth (cfg : ImgServerConfig) (q : Query) : JsNum :=
  match q.width with
  | none => JsNum.dec cfg.maxWidth 0
  | some s =>
    let n := jsNumber s
    if n ≠ JsNum.nan ∧ jsLtInt n cfg.maxWidth = true then n
    else JsNum.dec cfg.maxWidth 0

/-- The symmetric height rule of claim C1 against the configured maxHeight. -/
def claimResolvedHeight (cfg : ImgServerConfig) (q : Query) : JsNum :=
  match q.height with
  | none => JsNum.dec cfg.maxHeight 0
  | some s =>
    let n := jsNumber s
    if n ≠ JsNum.nan ∧ jsLtInt n cfg.maxHeight = true then n
    else JsNum.dec cfg.maxHeight 0

/-- The format rule exactly as claim C4 states it: the requested format when
present and a member of the configured allowed set, the configured default
format otherwise. -/
def claimResolvedExt (cfg : ImgServerConfig) (q : Query) : Str :=
  match q.ext with
  | none => cfg.defaultExt
  | some s => if s ∈ cfg.allowedExts then s else cfg.defaultExt

/-- A constructor configuration with bounds tighter than the built-in
defaults, exercising the configuration dependence asserted by claim C1. -/
def cfgSmall : ImgServerConfig :=
  { appConfig [] with maxWidth := 800, maxHeight := 500 }

/-- A constructor configuration restricting the allowed formats, exercising
the configuration dependence asserted by claim C4. -/
def cfgPng : ImgServerConfig :=
  { appConfig [] with allowedExts := ["png".data], defaultExt := "png".data }

/-- Counterexample to C1: under a configuration with maxWidth 800 a request
for width 1000 resolves to 1000, because `parseOptions` compares against the
hardcoded default 1920 and not the configured bound; and a requested width of
"0", which is present and numeric and below every bound, resolves to 1920
rather than 0, because a zero coercion is falsy. The symmetric height rule
fails the same way under maxHeight 500. -/
theorem imgserver_c1_counterexample :
    ((parseOptions { width := some "1000".data }).width = JsNum.dec 1000 0 ∧
      claimResolvedWidth cfgSmall { width := some "1000".data } = JsNum.dec 800 0 ∧
      (parseOptions { width := some "1000".data }).width ≠
        claimResolvedWidth cfgSmall { width := some "1000".data }) ∧
    ((parseOptions { width := some "0".data }).width = JsNum.dec 1920 0 ∧
      claimResolvedWidth (appConfig []) { width := some "0".data } = JsNum.dec 0 0 ∧
      (parseOptions { width := some "0".data }).width ≠
        claimResolvedWidth (appConfig []) { width := some "0".data }) ∧
    ((parseOptions { height := some "900".data }).height = JsNum.dec 900 0 ∧
      claimResolvedHeight cfgSmall { height := some "900".data } = JsNum.dec 500 0 ∧
      (parseOptions { height := some "900".data }).height ≠
        claimResolvedHeight cfgSmall { height := some "900".data }) := by
  decide

/-- C1 (amended): the resolved width equals the coerced requested value
exactly when the parameter is present, a non-empty string, coerces to a
truthy number (not NaN, not zero), and that number is strictly less than the
built-in default maxWidth 1920; otherwise it is 1920. The bound and fallback
are the hardcoded `_defaultConfig` values, independent of the configuration
supplied at construction. Symmetrically for height against the built-in
1080. In particular width=5000 resolves to 1920. -/
theorem imgserver_c1_amended (q : Query) (s : Str) :
    ((q.width = some s ∧ s ≠ [] ∧ jsTruthy (jsNumber s) = true ∧
        jsLtInt (jsNumber s) 1920 = true) → (parseOptions q).width = jsNumber s) ∧
      ((∀ s', q.width = some s' → s' = [] ∨ jsTruthy (jsNumber s') = false ∨
          jsLtInt (jsNumber s') 1920 = false) →
        (parseOptions q).width = JsNum.dec 1920 0) ∧
      ((q.height = some s ∧ s ≠ [] ∧ jsTruthy (jsNumber s) = true ∧
        jsLtInt (jsNumber s) 1080 = true) → (parseOptions q).height = jsNumber s) ∧
      ((∀ s', q.height = some s' → s' = [] ∨ jsTruthy (jsNumber s') = false ∨
          jsLtInt (jsNumber s') 1080 = false) →
        (parseOptions q).height = JsNum.dec 1080 0) := by
  refine ⟨?_, ?_, ?_, ?_⟩
  · rintro ⟨hq, hs, ht, hlt⟩
    simp only [parseOptions_width, hq]
    exact if_pos ⟨hs, ht, hlt⟩
  · intro hdef
    rw [parseOptions_width]
    rcases hq : q.width with _ | s'
    · rfl
    · rcases hdef s' hq with h | h | h
      · simp [h]
      · exact if_neg (fun hc => by rw [hc.2.1] at h; cases h)
      · exact if_neg (fun hc => by rw [hc.2.2] at h; cases h)
  · rintro ⟨hq, hs, ht, hlt⟩
    simp only [parseOptions_height, hq]
    exact if_pos ⟨hs, ht, hlt⟩
  · intro hdef
    rw [parseOptions_height]
    rcases hq : q.height with _ | s'
    · rfl
    · rcases hdef s' hq with h | h | h
      · simp [h]
      · exact if_neg (fun hc => by rw [hc.2.1] at h; cases h)
      · exact if_neg (fun hc => by rw [hc.2.2] at h; cases h)

/-- Witness for the amended C1 realising Scenario D: a request with
width=5000 resolves to the built-in 1920. -/
theorem imgserver_c1_witness :
    (parseOptions ({ width := some "5000".data } : Query)).width = JsNum.dec 1920 0 := by
  apply (imgserver_c1_amended ({ width := some "5000".data } : Query) []).2.1
  intro s' hs
  injection hs with hs
  subst hs
  right
  right
  decide

lemma jsLeInt_of_jsLtInt {n : JsNum} {b : Int} (h : jsLtInt n b = true) :
    jsLeInt n b = true := by
  cases n with
  | nan => simp [jsLtInt] at h
  | inf neg => simpa [jsLtInt, jsLeInt] using h
  | dec m k =>
    simp only [jsLtInt, decide_eq_true_eq] at h
    simp only [jsLeInt, decide_eq_true_eq]
    omega

lemma width_c3 (q : Query) :
    jsTruthy (parseOptions q).width = true ∧ jsLeInt (parseOptions q).width 1920 = true := by
  rw [parseOptions_width]
  rcases q.width with _ | s
  · exact ⟨rfl, by decide⟩
  · dsimp only
    by_cases hc : s ≠ [] ∧ jsTruthy (jsNumber s) = true ∧ jsLtInt (jsNumber s) 1920 = true
    · rw [if_pos hc]
      exact ⟨hc.2.1, jsLeInt_of_jsLtInt hc.2.2⟩
    · rw [if_neg hc]
      exact ⟨rfl, by decide⟩

lemma height_c3 (q : Query) :
    jsTruthy (parseOptions q).height = true ∧ jsLeInt (parseOptions q).height 1080 = true := by
  rw [parseOptions_height]
  rcases q.height with _ | s
  · exact ⟨rfl, by decide⟩
  · dsimp only
    by_cases hc : s ≠ [] ∧ jsTruthy (jsNumber s) = true ∧ jsLtInt (jsNumber s) 1080 = true
    · rw [if_pos hc]
      exact ⟨hc.2.1, jsLeInt_of_jsLtInt hc.2.2⟩
    · rw [if_neg hc]
      exact ⟨rfl, by decide⟩

lemma quality_c3 (q : Query) :
    jsTruthy (parseOptions q).quality = true ∧ jsLtInt (parseOptions q).quality 100 = true := by
  rw [parseOptions_quality]
  rcases q.quality with _ | s
  · exact ⟨rfl, by decide⟩
  · dsimp only
    by_cases hc : s ≠ [] ∧ jsTruthy (jsNumber s) = true ∧ jsLtInt (jsNumber s) 100 = true
    · rw [if_pos hc]
      exact ⟨hc.2.1, hc.2.2⟩
    · rw [if_neg hc]
      exact ⟨rfl, by decide⟩

lemma ext_c3 (q : Query) : (parseOptions q).ext ∈ allowedExtsD := by
  rw [parseOptions_ext]
  rcases q.ext with _ | s
  · decide
  · dsimp only
    by_cases hc : s ≠ [] ∧ s ∈ allowedExtsD
    · rw [if_pos hc]
      exact hc.2
    · rw [if_neg hc]
      decide

lemma mode_c3 (q : Query) : (parseOptions q).resizeMode ∈ resizeModesArray := by
  rw [parseOptions_resizeMode]
  rcases q.resizeMode with _ | s
  · decide
  · dsimp only
    by_cases hc : s ≠ [] ∧ s ∈ resizeModesArray
    · rw [if_pos hc]
      exact hc.2
    · rw [if_neg hc]
      decide

/-- A query requesting negative width, height and quality. -/
def qNeg : Query :=
  { width := some "-5".data, height := some "-2".data, quality := some "-3".data }

/-- Counterexample to C3: negative requested values pass every check of
`parseOptions` (a negative number is truthy and below the bound), so the
resolved record can carry width -5, height -2 and quality -3, each below the
claimed lower bound of 1. -/
theorem imgserver_c3_counterexample :
    (parseOptions qNeg).width = JsNum.dec (-5) 0 ∧
      jsGeInt (parseOptions qNeg).width 1 = false ∧
      (parseOptions qNeg).height = JsNum.dec (-2) 0 ∧
      jsGeInt (parseOptions qNeg).height 1 = false ∧
      (parseOptions qNeg).quality = JsNum.dec (-3) 0 ∧
      jsGeInt (parseOptions qNeg).quality 1 = false := by
  decide

/-- C3 (amended): every field of the resolved record is always populated, and
for every untrusted query input: each numeric field holds a truthy JavaScript
number (not NaN, not zero) — possibly negative, fractional, or negative
infinity — with width at most 1920, height at most 1080 and quality strictly
below 100; the output format is a member of the allowed-format set and the
fit mode one of cover, contain, fill. The claimed ranges 1..maxWidth,
1..maxHeight and 1..99 do not hold, because negative (and fractional)
requests are accepted. -/
theorem imgserver_c3_amended (q : Query) :
    jsTruthy (parseOptions q).width = true ∧
      jsLeInt (parseOptions q).width 1920 = true ∧
      jsTruthy (parseOptions q).height = true ∧
      jsLeInt (parseOptions q).height 1080 = true ∧
      jsTruthy (parseOptions q).quality = true ∧
      jsLtInt (parseOptions q).quality 100 = true ∧
      (parseOptions q).ext ∈ allowedExtsD ∧
      (parseOptions q).resizeMode ∈ resizeModesArray :=
  ⟨(width_c3 q).1, (width_c3 q).2, (height_c3 q).1, (height_c3 q).2,
    (quality_c3 q).1, (quality_c3 q).2, ext_c3 q, mode_c3 q⟩

/-- Counterexample to C4: under a configuration allowing only png, a request
for jpg still resolves to jpg, because `parseOptions` consults the hardcoded
default allowed-format list and default format, not the configured ones. -/
theorem imgserver_c4_counterexample :
    (parseOptions { ext := some "jpg".data }).ext = "jpg".data ∧
      claimResolvedExt cfgPng { ext := some "jpg".data } = "png".data ∧
      (parseOptions { ext := some "jpg".data }).ext ≠
        claimResolvedExt cfgPng { ext := some "jpg".data } := by
  decide

/-- C4 (amended): the resolved output format equals the requested one exactly
when it is present, non-empty, and a member of the built-in allowed-format
list webp, jpg, jpeg, png, gif of `_defaultConfig`; otherwise it is the
built-in default webp — in both cases independent of the allowed set and
default format supplied at construction. -/
theorem imgserver_c4_amended (q : Query) (s : Str) :
    ((q.ext = some s ∧ s ≠ [] ∧ s ∈ allowedExtsD) → (parseOptions q).ext = s) ∧
      ((∀ s', q.ext = some s' → s' ≠ [] → s' ∉ allowedExtsD) →
        (parseOptions q).ext = "webp".data) := by
  constructor
  · rintro ⟨hq, hs, hmem⟩
    simp only [parseOptions_ext, hq]
    exact if_pos ⟨hs, hmem⟩
  · intro hdef
    rw [parseOptions_ext]
    rcases hq : q.ext with _ | s'
    · rfl
    · by_cases hs : s' = []
      · simp [hs]
      · exact if_neg (fun hc => hdef s' hq hs hc.2)

/-- Witness for the amended C4: a requested jpg, which is in the built-in
list, is honored. -/
theorem imgserver_c4_witness :
    (parseOptions ({ ext := some "jpg".data } : Query)).ext = "jpg".data :=
  (imgserver_c4_amended ({ ext := some "jpg".data } : Query) "jpg".data).1
    ⟨rfl, by decide, by decide⟩

lemma parse_replicate (j : Nat) (s : Str) :
    parseNatChars (List.replicate j '0' ++ s) = parseNatChars s := by
  induction j with
  | zero => rfl
  | succ j ih =>
    rw [List.replicate_succ, List.cons_append]
    unfold parseNatChars at ih ⊢
    rw [List.foldl_cons, show (0 * 10 + digitVal '0') = 0 from by decide]
    exact ih

lemma parse_natPad (k a : Nat) : parseNatChars (natPad k (natToChars a)) = a := by
  unfold natPad
  rw [parse_replicate, parseNat_natToChars]

lemma natPad_digits (k : Nat) {s : Str} (hs : ∀ c ∈ s, c.isDigit = true) :
    ∀ c ∈ natPad k s, c.isDigit = true := by
  intro c hc
  rcases List.mem_append.mp hc with h | h
  · rw [List.eq_of_mem_replicate h]
    decide
  · exact hs c h

lemma natPad_length (k : Nat) (s : Str) : k + 1 ≤ (natPad k s).length := by
  simp [natPad]
  omega

lemma natDecRender_chars {a k : Nat} :
    ∀ c ∈ natDecRender a k, c.isDigit = true ∨ c = '.' := by
  intro c hc
  unfold natDecRender at hc
  by_cases hk : k = 0
  · rw [if_pos hk] at hc
    exact Or.inl (natToChars_digits c hc)
  · rw [if_neg hk] at hc
    have hd := natPad_digits k (s := natToChars a) (fun x hx => natToChars_digits x hx)
    rcases List.mem_append.mp hc with h | h
    · exact Or.inl (hd c (List.mem_of_mem_take h))
    · rcases List.mem_cons.mp h with h | h
      · exact Or.inr h
      · exact Or.inl (hd c (List.mem_of_mem_drop h))

lemma natDecRender_ne_nil (a k : Nat) : natDecRender a k ≠ [] := by
  unfold natDecRender
  by_cases hk : k = 0
  · rw [if_pos hk]
    exact natToChars_ne_nil
  · rw [if_neg hk]
    simp

lemma natDecRender_head (a k : Nat) :
    ∃ c t, natDecRender a k = c :: t ∧ c.isDigit = true := by
  by_cases hk : k = 0
  · rw [natDecRender.eq_def, if_pos hk]
    exact natToChars_head
  · have hlen := natPad_length k (natToChars a)
    have hdig := natPad_digits k (s := natToChars a) (fun x hx => natToChars_digits x hx)
    rcases hp : natPad k (natToChars a) with _ | ⟨c, t⟩
    · rw [hp] at hlen
      simp at hlen
    · have hc : c.isDigit = true := hdig c (by rw [hp]; simp)
      rw [natDecRender.eq_def, if_neg hk, hp]
      have h1 : (c :: t).length - k = (t.length - k) + 1 := by
        rw [hp] at hlen
        simp at hlen ⊢
        omega
      rw [h1, List.take_succ_cons, List.cons_append]
      exact ⟨c, _, rfl, hc⟩

lemma natDecRender_inj {a₁ k₁ a₂ k₂ : Nat}
    (h : natDecRender a₁ k₁ = natDecRender a₂ k₂) : a₁ = a₂ ∧ k₁ = k₂ := by
  by_cases h1 : k₁ = 0 <;> by_cases h2 : k₂ = 0
  · subst h1
    subst h2
    unfold natDecRender at h
    simp only [if_pos rfl] at h
    exact ⟨natToChars_inj h, rfl⟩
  · exfalso
    subst h1
    have hdot : '.' ∈ natDecRender a₂ k₂ := by
      unfold natDecRender
      rw [if_neg h2]
      exact List.mem_append.mpr (Or.inr (List.mem_cons_self _ _))
    rw [← h] at hdot
    rw [show natDecRender a₁ 0 = natToChars a₁ from by unfold natDecRender; simp] at hdot
    exact absurd (natToChars_digits _ hdot) (by decide)
  · exfalso
    subst h2
    have hdot : '.' ∈ natDecRender a₁ k₁ := by
      unfold natDecRender
      rw [if_neg h1]
      exact List.mem_append.mpr (Or.inr (List.mem_cons_self _ _))
    rw [h] at hdot
    rw [show natDecRender a₂ 0 = natToChars a₂ from by unfold natDecRender; simp] at hdot
    exact absurd (natToChars_digits _ hdot) (by decide)
  · unfold natDecRender at h
    rw [if_neg h1, if_neg h2] at h
    have hd₁ : ∀ c ∈ (natPad k₁ (natToChars a₁)).take
        ((natPad k₁ (natToChars a₁)).length - k₁), c.isDigit = true :=
      fun c hc => natPad_digits k₁ (fun x hx => natToChars_digits x hx) c
        (List.mem_of_mem_take hc)
    have hd₂ : ∀ c ∈ (natPad k₂ (natToChars a₂)).take
        ((natPad k₂ (natToChars a₂)).length - k₂), c.isDigit = true :=
      fun c hc => natPad_digits k₂ (fun x hx => natToChars_digits x hx) c
        (List.mem_of_mem_take hc)
    obtain ⟨hT, hD⟩ := append_cancel_pred Char.isDigit '.' (by decide) _ _ _ _
      hd₁ hd₂ ⟨_, rfl⟩ ⟨_, rfl⟩ h
    injection hD with _ hD'
    have hl₁ : ((natPad k₁ (natToChars a₁)).drop
        ((natPad k₁ (natToChars a₁)).length - k₁)).length = k₁ := by
      rw [List.length_drop]
      have := natPad_length k₁ (natToChars a₁)
      omega
    have hl₂ : ((natPad k₂ (natToChars a₂)).drop
        ((natPad k₂ (natToChars a₂)).length - k₂)).length = k₂ := by
      rw [List.length_drop]
      have := natPad_length k₂ (natToChars a₂)
      omega
    have hk : k₁ = k₂ := by
      rw [← hl₁, ← hl₂, hD']
    have hP : natPad k₁ (natToChars a₁) = natPad k₂ (natToChars a₂) := by
      rw [← List.take_append_drop ((natPad k₁ (natToChars a₁)).length - k₁)
          (natPad k₁ (natToChars a₁)),
        ← List.take_append_drop ((natPad k₂ (natToChars a₂)).length - k₂)
          (natPad k₂ (natToChars a₂)), hT, hD']
    have ha : a₁ = a₂ := by
      have e₁ := parse_natPad k₁ a₁
      rw [hP, parse_natPad] at e₁
      exact e₁.symm
    exact ⟨ha, hk⟩

lemma decRender_inj {m₁ : Int} {k₁ : Nat} {m₂ : Int} {k₂ : Nat}
    (h : decRender m₁ k₁ = decRender m₂ k₂) : m₁ = m₂ ∧ k₁ = k₂ := by
  unfold decRender at h
  by_cases h1 : m₁ < 0 <;> by_cases h2 : m₂ < 0
  · rw [if_pos h1, if_pos h2] at h
    injection h with _ h'
    obtain ⟨ha, hk⟩ := natDecRender_inj h'
    exact ⟨by omega, hk⟩
  · exfalso
    rw [if_pos h1, if_neg h2] at h
    obtain ⟨c, t, hct, hcd⟩ := natDecRender_head m₂.toNat k₂
    rw [hct] at h
    injection h with h' _
    rw [← h'] at hcd
    exact absurd hcd (by decide)
  · exfalso
    rw [if_neg h1, if_pos h2] at h
    obtain ⟨c, t, hct, hcd⟩ := natDecRender_head m₁.toNat k₁
    rw [hct] at h
    injection h with h' _
    rw [h'] at hcd
    exact absurd hcd (by decide)
  · rw [if_neg h1, if_neg h2] at h
    obtain ⟨ha, hk⟩ := natDecRender_inj h
    exact ⟨by omega, hk⟩

lemma jsNumRender_ne_nil (n : JsNum) : jsNumRender n ≠ [] := by
  cases n with
  | nan => decide
  | inf b => cases b <;> decide
  | dec m k =>
    show decRender m k ≠ []
    unfold decRender
    by_cases hm : m < 0
    · rw [if_pos hm]
      simp
    · rw [if_neg hm]
      exact natDecRender_ne_nil _ _

/-- Separator-freedom of the tail of a rendered number: after its first
character, a rendered JavaScript number contains no dash, so the dash always
re-synchronises the field markers of the cache name. -/
def isNotDash (c : Char) : Bool := if c = '-' then false else true

lemma isNotDash_of_ne {c : Char} (h : ¬ c = '-') : isNotDash c = true := by
  simp [isNotDash, h]

lemma isNotDash_of_digit_or_dot {c : Char} (h : c.isDigit = true ∨ c = '.') :
    isNotDash c = true := by
  rcases h with h | h
  · exact isNotDash_of_ne (fun he => by rw [he] at h; exact absurd h (by decide))
  · rw [h]
    decide

lemma jsNumRender_tail {n : JsNum} {c : Char} {t : Str}
    (h : jsNumRender n = c :: t) : ∀ x ∈ t, isNotDash x = true := by
  cases n with
  | nan =>
    injection h with _ h'
    rw [← h']
    decide
  | inf b =>
    cases b
    · injection h with _ h'
      rw [← h']
      decide
    · injection h with _ h'
      rw [← h']
      decide
  | dec m k =>
    have hd : decRender m k = c :: t := h
    unfold decRender at hd
    by_cases hm : m < 0
    · rw [if_pos hm] at hd
      injection hd with _ h'
      intro x hx
      rw [← h'] at hx
      exact isNotDash_of_digit_or_dot (natDecRender_chars x hx)
    · rw [if_neg hm] at hd
      intro x hx
      have hx' : x ∈ natDecRender m.toNat k := by
        rw [hd]
        exact List.mem_cons_of_mem _ hx
      exact isNotDash_of_digit_or_dot (natDecRender_chars x hx')

lemma nan_ne_decRender (m : Int) (k : Nat) : "NaN".data ≠ decRender m k := by
  intro hd
  unfold decRender at hd
  by_cases hm : m < 0
  · rw [if_pos hm] at hd
    injection hd with h1 _
    exact absurd h1 (by decide)
  · rw [if_neg hm] at hd
    obtain ⟨c, t, hct, hcd⟩ := natDecRender_head m.toNat k
    rw [hct] at hd
    injection hd with h1 _
    rw [← h1] at hcd
    exact absurd hcd (by decide)

lemma posInf_ne_decRender (m : Int) (k : Nat) : "Infinity".data ≠ decRender m k := by
  intro hd
  unfold decRender at hd
  by_cases hm : m < 0
  · rw [if_pos hm] at hd
    injection hd with h1 _
    exact absurd h1 (by decide)
  · rw [if_neg hm] at hd
    obtain ⟨c, t, hct, hcd⟩ := natDecRender_head m.toNat k
    rw [hct] at hd
    injection hd with h1 _
    rw [← h1] at hcd
    exact absurd hcd (by decide)

lemma negInf_ne_decRender (m : Int) (k : Nat) :
    '-' :: "Infinity".data ≠ decRender m k := by
  intro hd
  unfold decRender at hd
  by_cases hm : m < 0
  · rw [if_pos hm] at hd
    injection hd with _ h2
    obtain ⟨c, t, hct, hcd⟩ := natDecRender_head m.natAbs k
    rw [hct] at h2
    injection h2 with h3 _
    rw [← h3] at hcd
    exact absurd hcd (by decide)
  · rw [if_neg hm] at hd
    obtain ⟨c, t, hct, hcd⟩ := natDecRender_head m.toNat k
    rw [hct] at hd
    injection hd with h1 _
    rw [← h1] at hcd
    exact absurd hcd (by decide)

lemma jsNumRender_inj {n₁ n₂ : JsNum} (h : jsNumRender n₁ = jsNumRender n₂) :
    n₁ = n₂ := by
  cases n₁ with
  | nan =>
    cases n₂ with
    | nan => rfl
    | inf b => cases b <;> exact absurd h (by decide)
    | dec m k => exact absurd h (nan_ne_decRender m k)
  | inf b₁ =>
    cases n₂ with
    | nan => cases b₁ <;> exact absurd h (by decide)
    | inf b₂ => cases b₁ <;> cases b₂ <;> first | rfl | exact absurd h (by decide)
    | dec m k =>
      cases b₁
      · exact absurd h (posInf_ne_decRender m k)
      · exact absurd h (negInf_ne_decRender m k)
  | dec m₁ k₁ =>
    cases n₂ with
    | nan => exact absurd h.symm (nan_ne_decRender m₁ k₁)
    | inf b₂ =>
      cases b₂
      · exact absurd h.symm (posInf_ne_decRender m₁ k₁)
      · exact absurd h.symm (negInf_ne_decRender m₁ k₁)
    | dec m₂ k₂ =>
      obtain ⟨hm, hk⟩ := decRender_inj (show decRender m₁ k₁ = decRender m₂ k₂ from h)
      rw [hm, hk]

/-- A rendered JavaScript number followed by a dash-led tail can be
cancelled: equal concatenations force equal numbers and equal tails. -/
lemma jsNumRender_cancel (n₁ n₂ : JsNum) (s₁ s₂ : Str)
    (hs₁ : ∃ t, s₁ = '-' :: t) (hs₂ : ∃ t, s₂ = '-' :: t)
    (h : jsNumRender n₁ ++ s₁ = jsNumRender n₂ ++ s₂) : n₁ = n₂ ∧ s₁ = s₂ := by
  rcases hr₁ : jsNumRender n₁ with _ | ⟨c₁, t₁⟩
  · exact absurd hr₁ (jsNumRender_ne_nil n₁)
  rcases hr₂ : jsNumRender n₂ with _ | ⟨c₂, t₂⟩
  · exact absurd hr₂ (jsNumRender_ne_nil n₂)
  rw [hr₁, hr₂, List.cons_append, List.cons_append] at h
  injection h with h1 h2
  obtain ⟨ht, hs⟩ := append_cancel_pred isNotDash '-' (by decide) t₁ t₂ s₁ s₂
    (jsNumRender_tail hr₁) (jsNumRender_tail hr₂) hs₁ hs₂ h2
  refine ⟨jsNumRender_inj ?_, hs⟩
  rw [hr₁, hr₂, h1, ht]

lemma alpha_of_mem_allowed {e : Str} (h : e ∈ allowedExtsD) :
    ∀ c ∈ e, Char.isAlpha c = true := by
  simp only [allowedExtsD, List.mem_cons, List.not_mem_nil, or_false] at h
  rcases h with rfl | rfl | rfl | rfl | rfl <;> decide

lemma alpha_of_mem_modes {m : Str} (h : m ∈ resizeModesArray) :
    ∀ c ∈ m, Char.isAlpha c = true := by
  simp only [resizeModesArray, List.mem_cons, List.not_mem_nil, or_false] at h
  rcases h with rfl | rfl | rfl <;> decide

/-- C6: for a fixed source path, two resolved options records that differ in
at least one field produce different intermediate strings, so their derived
cache keys differ barring slug collisions: any equality of final keys can
only come from the slugification step mapping two distinct intermediate
strings to the same slug. (A known collision class of that kind exists: the
sign of a negative value collapses into the field separator, so width -5 and
width 5 slugify identically.) The hypotheses record that both records are
resolved ones, whose format and fit mode are members of the allowed sets. -/
theorem imgserver_c6_injective (p : Str) (o₁ o₂ : ImgRequestQueryOptions)
    (h₁e : o₁.ext ∈ allowedExtsD) (h₂e : o₂.ext ∈ allowedExtsD)
    (h₁m : o₁.resizeMode ∈ resizeModesArray)
    (h₂m : o₂.resizeMode ∈ resizeModesArray)
    (hne : o₁ ≠ o₂) : preSlugName p o₁ ≠ preSlugName p o₂ := by
  obtain ⟨w₁, ht₁, q₁, e₁, m₁⟩ := o₁
  obtain ⟨w₂, ht₂, q₂, e₂, m₂⟩ := o₂
  intro h
  apply hne
  unfold preSlugName at h
  simp only [List.append_assoc] at h
  simp only [List.append_eq, List.cons_append, List.nil_append, List.cons.injEq,
    eq_self_iff_true, true_and] at h
  obtain ⟨hw, h⟩ := jsNumRender_cancel _ _ _ _ ⟨_, rfl⟩ ⟨_, rfl⟩ h
  simp only [List.append_eq, List.cons_append, List.nil_append, List.cons.injEq,
    eq_self_iff_true, true_and] at h
  obtain ⟨hh, h⟩ := jsNumRender_cancel _ _ _ _ ⟨_, rfl⟩ ⟨_, rfl⟩ h
  simp only [List.append_eq, List.cons_append, List.nil_append, List.cons.injEq,
    eq_self_iff_true, true_and] at h
  obtain ⟨hq, h⟩ := jsNumRender_cancel _ _ _ _ ⟨_, rfl⟩ ⟨_, rfl⟩ h
  simp only [List.append_eq, List.cons_append, List.nil_append, List.cons.injEq,
    eq_self_iff_true, true_and] at h
  obtain ⟨he, h⟩ := append_cancel_pred Char.isAlpha '-' (by decide) _ _ _ _
    (alpha_of_mem_allowed h₁e) (alpha_of_mem_allowed h₂e) ⟨_, rfl⟩ ⟨_, rfl⟩ h
  simp only [List.append_eq, List.cons_append, List.nil_append, List.cons.injEq,
    eq_self_iff_true, true_and] at h
  obtain ⟨hm, _⟩ := append_cancel_pred Char.isAlpha '-' (by decide) _ _ _ _
    (alpha_of_mem_modes h₁m) (alpha_of_mem_modes h₂m) ⟨_, rfl⟩ ⟨_, rfl⟩ h
  subst hw
  subst hh
  subst hq
  subst he
  subst hm
  rfl

/-- Witness for C6: two resolved records differing only in width produce
different intermediate strings for the same path. -/
theorem imgserver_c6_witness :
    preSlugName "/a.jpg".data
        ⟨JsNum.dec 100 0, JsNum.dec 1080 0, JsNum.dec 80 0, "webp".data, "cover".data⟩ ≠
      preSlugName "/a.jpg".data
        ⟨JsNum.dec 200 0, JsNum.dec 1080 0, JsNum.dec 80 0, "webp".data, "cover".data⟩ :=
  imgserver_c6_injective "/a.jpg".data _ _ (by decide) (by decide) (by decide)
    (by decide) (by decide)
